import Mathlib

/-!
Player service: ping and challenge handlers.

A shallow embedding of `app/player-service/models/models.go` and
`app/player-service/routes/handlers.go`.

The two handlers are functions of
* a `World`: everything the handler reads from outside itself (environment
  variables, the random source, the clock, the outcome of the outbound HTTP call and
  of the JSON decoder), and
* a `Context`: the inbound request,

and they return an `Outcome`: the status and body written to the gin context and the
ordered list of observable events (sleeps, log entries, outbound requests).

Go `int` is taken to be 64 bits wide (`wrapInt64` at the one addition whose operands
are not bounded by construction).
-/

deriving instance DecidableEq for Except

namespace PlayerService

/-! ## models/models.go -/

/-- The struct `models.PingResponse`. -/
structure PingResponse where
  Player : String
  Status : String
  LatencyMs : Int
deriving DecidableEq, Repr

/-- The struct `models.ChallengeRequest`; `OpponentURL` carries `binding:"required"`. -/
structure ChallengeRequest where
  OpponentURL : String
deriving DecidableEq, Repr

/-- The struct `models.ChallengeResponse`. -/
structure ChallengeResponse where
  Winner : String
  Loser : String
  DurationMs : Int
deriving DecidableEq, Repr

/-- The struct `models.MatchLog`. -/
structure MatchLog where
  Timestamp : String
  LocalName : String
  RemoteName : String
  Winner : String
  LocalTime : Int
  RemoteTime : Int
  RemoteIP : String
  RequestID : String
  TraceID : String
deriving DecidableEq, Repr

/-- A JSON scalar, as far as `MatchLog` needs it. -/
inductive JSONValue where
  | str (s : String)
  | num (n : Int)
deriving DecidableEq, Repr

/-- The members `json.Marshal` writes for a `MatchLog`, following the struct tags:
`requestId` and `traceId` are `omitempty`. -/
def MatchLog.marshal (m : MatchLog) : List (String × JSONValue) :=
  [("timestamp", .str m.Timestamp), ("localName", .str m.LocalName),
   ("remoteName", .str m.RemoteName), ("winner", .str m.Winner),
   ("localTime", .num m.LocalTime), ("remoteTime", .num m.RemoteTime),
   ("remoteIp", .str m.RemoteIP)]
  ++ (if m.RequestID = "" then [] else [("requestId", .str m.RequestID)])
  ++ (if m.TraceID = "" then [] else [("traceId", .str m.TraceID)])

/-! ## HTTP data -/

/-- A header map: canonical key, values. -/
abbrev Header := List (String × List String)

/-- Go `textproto.CanonicalMIMEHeaderKey` on a key made of letters, digits and hyphens:
the first letter and every letter after a hyphen in upper case, the others in lower
case. -/
def canonicalKeyAux : Bool → List Char → List Char
  | _, [] => []
  | up, c :: cs =>
    (if up then c.toUpper else c.toLower) :: canonicalKeyAux (c == '-') cs

/-- Canonical form of a header key. -/
def CanonicalMIMEHeaderKey (k : String) : String :=
  String.mk (canonicalKeyAux true k.toList)

/-- Go `http.Header.Get`: first value stored under the canonical key, `""` if none. -/
def Header.Get (h : Header) (key : String) : String :=
  match h.lookup (CanonicalMIMEHeaderKey key) with
  | some (v :: _) => v
  | _ => ""

/-- Go `http.Header.Set`: the canonical key now maps to the single value. -/
def Header.Set (h : Header) (key value : String) : Header :=
  (CanonicalMIMEHeaderKey key, [value]) ::
    h.filter (fun kv => kv.1 != CanonicalMIMEHeaderKey key)

/-- An outbound `*http.Request` (body is always nil here). -/
structure Request where
  Method : String
  URL : String
  Header : Header
deriving DecidableEq, Repr

/-- What `httpClient.Do` hands back: the status line and the outcome of
`io.ReadAll(resp.Body)`. -/
structure Response where
  StatusCode : Int
  Body : Except String String
deriving DecidableEq, Repr

/-- The inbound request as the handlers see it through `*gin.Context`. -/
structure Context where
  /-- Value of `c.Request.Header` (keys canonical). -/
  Header : Header
  /-- Result of JSON-decoding the request body into `models.ChallengeRequest`. -/
  jsonBody : Except String ChallengeRequest
  /-- Value of `c.ClientIP()`. -/
  ClientIP : String

/-- Gin `c.GetHeader`. -/
def Context.GetHeader (c : Context) (key : String) : String :=
  c.Header.Get key

/-- Everything a handler reads from outside itself during one invocation. -/
structure World where
  /-- Package variable `playerName`, set once by `SetupRoutes`. -/
  playerName : String
  /-- Value of `os.Getenv("FAIL_MODE")`, empty when unset. -/
  FAIL_MODE : String
  /-- Value of `os.Getenv("FORCE_LOSS")`, empty when unset. -/
  FORCE_LOSS : String
  /-- Value returned by `rand.Intn(901)`. -/
  Intn901 : Fin 901
  /-- Value of `time.Now().Format(time.RFC3339)`. -/
  now : String
  /-- URL parsing inside `http.NewRequest`: `.error` when the URL does not parse. -/
  urlParse : String → Except String Unit
  /-- Outcome of `httpClient.Do`: `.error` on connect failure or timeout. -/
  Do : Request → Except String Response
  /-- Value of `time.Since(opponentStartTime)`, a `time.Duration` in nanoseconds. -/
  elapsed : Int
  /-- Outcome of `json.Unmarshal(body, &opponentResponse)`. -/
  Unmarshal : String → Except String PingResponse

/-! ## What a handler does -/

/-- A value stored in a `logrus.Fields` map. -/
inductive LogValue where
  | str (s : String)
  | int (n : Int)
  | strs (l : List String)
  /-- The text `string(matchLogJSON)` for the given match log. -/
  | matchJSON (m : MatchLog)
deriving DecidableEq, Repr

/-- Log levels used by the handlers. -/
inductive Level where
  | info
  | error
deriving DecidableEq, Repr

/-- Observable effects of a handler, in program order. -/
inductive Event where
  /-- Call to `time.Sleep` for the given number of milliseconds. -/
  | sleep (ms : Int)
  /-- One structured log entry. -/
  | log (lvl : Level) (msg : String) (fields : List (String × LogValue))
  /-- The request handed to `httpClient.Do`. -/
  | send (req : Request)
deriving DecidableEq, Repr

/-- Body written to the gin context. -/
inductive Body where
  /-- Nothing written (`c.Status` only). -/
  | empty
  /-- JSON of a `models.PingResponse`. -/
  | ping (r : PingResponse)
  /-- JSON of a `models.ChallengeResponse`. -/
  | challenge (r : ChallengeResponse)
  /-- JSON of `gin.H{"error": msg}`. -/
  | error (msg : String)
deriving DecidableEq, Repr

/-- Result of running a handler. -/
structure Outcome where
  status : Int
  body : Body
  events : List Event
deriving DecidableEq, Repr

/-- The match log carried by an event, if the event is a log entry with a
`"match"` field. -/
def Event.matchLog : Event → Option MatchLog
  | .log _ _ fields =>
    fields.findSome? (fun kv =>
      match kv with
      | ("match", .matchJSON m) => some m
      | _ => none)
  | _ => none

/-- The match records a handler run emitted. -/
def Outcome.matchRecords (o : Outcome) : List MatchLog :=
  o.events.filterMap Event.matchLog

/-- The requests a handler run sent to a peer. -/
def Outcome.sent (o : Outcome) : List Request :=
  o.events.filterMap (fun e => match e with | .send r => some r | _ => none)

/-! ## Machine integers and time -/

/-- Two's-complement wrap to 64 bits. -/
def wrapInt64 (x : Int) : Int :=
  (x + 2 ^ 63) % 2 ^ 64 - 2 ^ 63

/-- A value is representable as an `int64`. -/
def InInt64 (x : Int) : Prop :=
  -(2 ^ 63) ≤ x ∧ x < 2 ^ 63

instance (x : Int) : Decidable (InInt64 x) := by
  unfold InInt64; infer_instance

/-- Go `time.Duration.Milliseconds`: integer millisecond count, truncated. -/
def Milliseconds (d : Int) : Int :=
  Int.tdiv d 1000000

/-- The expression `rand.Intn(901) + 100` of both handlers. -/
def simulatedLatency (r : Fin 901) : Int :=
  (r.val : Int) + 100

/-! ## `fmt.Sscanf(failMode, "%d", new(int))` -/

/-- Go `fmt.isSpace` (the table `space` of fmt/scan.go). -/
def isSpace (r : Char) : Bool :=
  let x := r.toNat
  if x ≥ 65536 then false
  else (9 ≤ x && x ≤ 13) || x == 32 || x == 133 || x == 160 || x == 5760
    || (8192 ≤ x && x ≤ 8202) || (8232 ≤ x && x ≤ 8233) || x == 8239 || x == 8287
    || x == 12288

/-- Go `(*ss).SkipSpace` with `nlIsSpace = false`: a newline is an error. -/
def SkipSpace : List Char → Except String (List Char)
  | [] => .ok []
  | r :: rest =>
    if r = '\n' then .error "unexpected newline"
    else if isSpace r then SkipSpace rest
    else .ok (r :: rest)

/-- Characters `scanNumber` accepts for verb `d`: the decimal digits `"0123456789"`
(`getBase` of fmt/scan.go; the underscore is only added for verb `v`). -/
def isScanDigit (c : Char) : Bool :=
  c.isDigit

/-- Go `strconv.ParseUint(s, 10, 64)` without the range check: `none` is a syntax
error (empty, or a character that is not a decimal digit). -/
def parseDigits : List Char → Nat → Option Nat
  | [], acc => some acc
  | c :: cs, acc => if c.isDigit then parseDigits cs (acc * 10 + (c.toNat - 48)) else none

/-- Go `strconv.ParseInt(tok, 10, 64)`. -/
def ParseInt (tok : List Char) : Except String Int :=
  let neg := tok.head? == some '-'
  let s := if tok.head? == some '+' || tok.head? == some '-' then tok.tail else tok
  if s = [] then .error "invalid syntax"
  else
    match parseDigits s 0 with
    | none => .error "invalid syntax"
    | some un =>
      if !neg && un ≥ 2 ^ 63 then .error "value out of range"
      else if neg && un > 2 ^ 63 then .error "value out of range"
      else .ok (if neg then -(un : Int) else (un : Int))

/-- Go `(*ss).scanInt('d', 64)` on the whole input: skip spaces, optional sign, a
non-empty run of `isScanDigit` characters, then `ParseInt` of sign and run. What
follows the run is left unread. -/
def scanInt (input : List Char) : Except String Int :=
  match SkipSpace input with
  | .error e => .error e
  | .ok [] => .error "unexpected EOF"
  | .ok (c :: cs) =>
    let sign := if c == '+' || c == '-' then [c] else []
    let rest := if c == '+' || c == '-' then cs else c :: cs
    match rest with
    | [] => .error "unexpected EOF"
    | d :: _ =>
      if isScanDigit d then ParseInt (sign ++ rest.takeWhile isScanDigit)
      else .error "expected integer"

/-- Go `fmt.Sscanf(str, "%d", new(int))`: the pair `(n, err)` it returns, `n` being
the number of items successfully parsed. The parsed integer itself goes to the
operand `new(int)`, which the caller does not keep. -/
def Sscanf (str : String) : Int × Option String :=
  match scanInt str.toList with
  | .ok _ => (1, none)
  | .error e => (0, some e)

/-! ## routes/handlers.go -/

/-- Entries added by the loop over `c.Request.Header` in `PingHandler`: every key
longer than two bytes that starts with `X-`. -/
def xHeaderFields (h : Header) : List (String × LogValue) :=
  (h.filter (fun kv => decide (kv.1.utf8ByteSize > 2) && kv.1.toList.take 2 == ['X', '-'])).map
    (fun kv => ("header_" ++ kv.1, LogValue.strs kv.2))

/-- The handler `PingHandler`. -/
def PingHandler (w : World) (c : Context) : Outcome :=
  let latency := simulatedLatency w.Intn901
  let requestID := c.GetHeader "X-Request-ID"
  let meshTrace := c.GetHeader "X-Mesh-Trace"
  let logFields : List (String × LogValue) :=
    [("endpoint", .str "/ping"), ("latency_ms", .int latency)]
    ++ (if requestID ≠ "" then [("x_request_id", .str requestID)] else [])
    ++ (if meshTrace ≠ "" then [("x_mesh_trace", .str meshTrace)] else [])
    ++ xHeaderFields c.Header
  let events := [Event.sleep latency, Event.log .info "Ping request received" logFields]
  let failMode := w.FAIL_MODE
  let scanned := Sscanf failMode
  let statusCode := scanned.1
  let err := scanned.2
  if failMode ≠ "" ∧ err = none ∧ statusCode > 0 then
    { status := statusCode, body := .empty, events := events }
  else
    { status := 200,
      body := .ping { Player := w.playerName, Status := "pong", LatencyMs := latency },
      events := events }

/-- Gin `c.ShouldBindJSON(&request)` for `models.ChallengeRequest`: decode the body,
then validate the `required` tag (a string is missing when it is empty). -/
def ShouldBindJSON (c : Context) : Except String ChallengeRequest :=
  match c.jsonBody with
  | .error e => .error e
  | .ok request =>
    if request.OpponentURL = "" then
      .error "Field validation for OpponentURL failed on the required tag"
    else .ok request

/-- Go `http.NewRequest("GET", url, nil)`: fails exactly when the URL does not
parse; the new request has no headers. -/
def NewRequest (w : World) (url : String) : Except String Request :=
  match w.urlParse url with
  | .error e => .error e
  | .ok _ => .ok { Method := "GET", URL := url, Header := [] }

/-- Lines 158 to 161 of `ChallengeHandler`: the request identifier, when there is
one, is set on the outbound request. -/
def withRequestID (requestID : String) (req : Request) : Request :=
  if requestID ≠ "" then
    { req with Header := req.Header.Set "X-Request-ID" requestID }
  else req

/-- Lines 208 to 225 of `ChallengeHandler`: the pair `(winner, loser)`. -/
def determineWinner (playerName : String) (opponentResponse : PingResponse)
    (localLatency remoteLatency : Int) (forceLoss : String) : String × String :=
  if forceLoss = "true" then
    (opponentResponse.Player, playerName)
  else if localLatency < remoteLatency then
    (playerName, opponentResponse.Player)
  else
    (opponentResponse.Player, playerName)

/-- The handler `ChallengeHandler`. -/
def ChallengeHandler (w : World) (c : Context) : Outcome :=
  match ShouldBindJSON c with
  | .error e =>
    { status := 400, body := .error "Invalid request format",
      events := [.log .error "Invalid challenge request" [("error", .str e)]] }
  | .ok request =>
    let requestID := c.GetHeader "X-Request-ID"
    let logFields : List (String × LogValue) :=
      [("endpoint", .str "/challenge"), ("opponent_url", .str request.OpponentURL)]
      ++ (if requestID ≠ "" then [("x_request_id", .str requestID)] else [])
    let localLatency := simulatedLatency w.Intn901
    let events1 :=
      [Event.log .info "Challenge request received" logFields, Event.sleep localLatency]
    match NewRequest w request.OpponentURL with
    | .error e =>
      { status := 500, body := .error "Failed to challenge opponent",
        events := events1 ++
          [.log .error "Failed to create request for opponent" [("error", .str e)]] }
    | .ok req0 =>
      let req := withRequestID requestID req0
      let events2 := events1 ++ [Event.send req]
      match w.Do req with
      | .error e =>
        { status := 500, body := .error "Failed to reach opponent",
          events := events2 ++
            [.log .error "Failed to get response from opponent" [("error", .str e)]] }
      | .ok resp =>
        let remoteLatency := Milliseconds w.elapsed
        match resp.Body with
        | .error e =>
          { status := 500, body := .error "Failed to read opponent response",
            events := events2 ++
              [.log .error "Failed to read opponent response" [("error", .str e)]] }
        | .ok body =>
          match w.Unmarshal body with
          | .error e =>
            { status := 500, body := .error "Failed to decode opponent response",
              events := events2 ++
                [.log .error "Failed to decode opponent response"
                  [("error", .str e), ("body", .str body)]] }
          | .ok opponentResponse =>
            let forceLoss := w.FORCE_LOSS
            let wl := determineWinner w.playerName opponentResponse localLatency
              remoteLatency forceLoss
            let winner := wl.1
            let loser := wl.2
            let matchLog : MatchLog :=
              { Timestamp := w.now, LocalName := w.playerName,
                RemoteName := opponentResponse.Player, Winner := winner,
                LocalTime := localLatency, RemoteTime := remoteLatency,
                RemoteIP := c.ClientIP, RequestID := requestID, TraceID := "" }
            let totalDuration := wrapInt64 (localLatency + remoteLatency)
            { status := 200,
              body := .challenge
                { Winner := winner, Loser := loser, DurationMs := totalDuration },
              events := events2 ++
                [.log .info "Match completed" [("match", .matchJSON matchLog)]] }

/-! ## Inputs on which `ChallengeHandler` reaches the adjudication -/

/-- The request binds, the outbound request is built, the peer answers, the body is
read and decodes to `opp`. -/
def Completes (w : World) (c : Context) (opp : PingResponse) : Prop :=
  ∃ request req0 resp body,
    ShouldBindJSON c = .ok request ∧
    NewRequest w request.OpponentURL = .ok req0 ∧
    w.Do (withRequestID (c.GetHeader "X-Request-ID") req0) = .ok resp ∧
    resp.Body = .ok body ∧
    w.Unmarshal body = .ok opp

/-- The match log `ChallengeHandler` builds once the peer answered `opp`. -/
def builtMatchLog (w : World) (c : Context) (opp : PingResponse) : MatchLog :=
  { Timestamp := w.now, LocalName := w.playerName, RemoteName := opp.Player,
    Winner := (determineWinner w.playerName opp (simulatedLatency w.Intn901)
      (Milliseconds w.elapsed) w.FORCE_LOSS).1,
    LocalTime := simulatedLatency w.Intn901, RemoteTime := Milliseconds w.elapsed,
    RemoteIP := c.ClientIP, RequestID := c.GetHeader "X-Request-ID", TraceID := "" }

/-- The challenge response `ChallengeHandler` builds once the peer answered `opp`. -/
def builtResponse (w : World) (opp : PingResponse) : ChallengeResponse :=
  { Winner := (determineWinner w.playerName opp (simulatedLatency w.Intn901)
      (Milliseconds w.elapsed) w.FORCE_LOSS).1,
    Loser := (determineWinner w.playerName opp (simulatedLatency w.Intn901)
      (Milliseconds w.elapsed) w.FORCE_LOSS).2,
    DurationMs := wrapInt64 (simulatedLatency w.Intn901 + Milliseconds w.elapsed) }

/-! ## Concrete inputs -/

/-- A peer body: the JSON object with player `B`, status `pong`, latencyMs `120`. -/
def sampleBody : String :=
  "\x7b\"player\":\"B\",\"status\":\"pong\",\"latencyMs\":120\x7d"

/-- The decoded form of `sampleBody`. -/
def peerB : PingResponse :=
  { Player := "B", Status := "pong", LatencyMs := 120 }

/-- A fragment of Go URL parsing (`getScheme` of net/url): a raw URL that starts with
a colon is rejected with "missing protocol scheme". -/
def sampleUrlParse (u : String) : Except String Unit :=
  if u.toList.head? = some ':' then .error "missing protocol scheme" else .ok ()

/-- Node `A`, no fault setting, local latency 250 ms; the peer answers 200 with
`sampleBody` after 250 ms. -/
def sampleWorld : World :=
  { playerName := "A", FAIL_MODE := "", FORCE_LOSS := "", Intn901 := 150,
    now := "2025-01-01T00:00:00Z", urlParse := sampleUrlParse,
    Do := fun _ => .ok { StatusCode := 200, Body := .ok sampleBody },
    elapsed := 250000000,
    Unmarshal := fun b => if b = sampleBody then .ok peerB else .error "invalid character" }

/-- A challenge request for `http://player-b/ping` carrying `X-Request-ID: req-1`. -/
def sampleContext : Context :=
  { Header := [("X-Request-Id", ["req-1"])],
    jsonBody := .ok { OpponentURL := "http://player-b/ping" },
    ClientIP := "10.0.0.7" }

/-- The same request without any header. -/
def bareContext : Context :=
  { Header := [], jsonBody := .ok { OpponentURL := "http://player-b/ping" },
    ClientIP := "10.0.0.7" }

/-- The world in which every answer of the peer carries status `s` instead of its
own, all else equal. -/
def World.withPeerStatus (w : World) (s : Int) : World :=
  { w with Do := fun r => (w.Do r).map (fun x => { x with StatusCode := s }) }

/-! ## Shared lemmas -/

theorem completes_status {w : World} {c : Context} {opp : PingResponse}
    (h : Completes w c opp) : (ChallengeHandler w c).status = 200 := by
  obtain ⟨request, req0, resp, body, h1, h2, h3, h4, h5⟩ := h
  simp [ChallengeHandler, h1, h2, h3, h4, h5]

theorem completes_body {w : World} {c : Context} {opp : PingResponse}
    (h : Completes w c opp) :
    (ChallengeHandler w c).body = .challenge (builtResponse w opp) := by
  obtain ⟨request, req0, resp, body, h1, h2, h3, h4, h5⟩ := h
  simp [ChallengeHandler, h1, h2, h3, h4, h5, builtResponse]

theorem completes_matchRecords {w : World} {c : Context} {opp : PingResponse}
    (h : Completes w c opp) :
    (ChallengeHandler w c).matchRecords = [builtMatchLog w c opp] := by
  obtain ⟨request, req0, resp, body, h1, h2, h3, h4, h5⟩ := h
  simp [ChallengeHandler, h1, h2, h3, h4, h5, builtMatchLog, Outcome.matchRecords,
    Event.matchLog, List.filterMap_cons, List.findSome?]

theorem completes_sent {w : World} {c : Context} {opp : PingResponse}
    (h : Completes w c opp) :
    ∃ url, c.jsonBody = .ok { OpponentURL := url } ∧
      (ChallengeHandler w c).sent =
        [withRequestID (c.GetHeader "X-Request-ID")
          { Method := "GET", URL := url, Header := [] }] := by
  obtain ⟨request, req0, resp, body, h1, h2, h3, h4, h5⟩ := h
  have hreq : req0 = { Method := "GET", URL := request.OpponentURL, Header := [] } := by
    unfold NewRequest at h2
    split at h2
    · simp at h2
    · simp at h2
      exact h2.symm
  have hbody : c.jsonBody = .ok { OpponentURL := request.OpponentURL } := by
    unfold ShouldBindJSON at h1
    split at h1
    · simp at h1
    · rename_i r hr
      split at h1
      · simp at h1
      · simp at h1
        rw [hr, h1]
  refine ⟨request.OpponentURL, hbody, ?_⟩
  subst hreq
  simp [ChallengeHandler, h1, h2, h3, h4, h5, Outcome.sent, List.filterMap_cons]

/-- The millisecond count of an `int64` duration stays far inside `int64`. -/
theorem milliseconds_bounds {d : Int} (hd : InInt64 d) :
    -9223372036855 ≤ Milliseconds d ∧ Milliseconds d ≤ 9223372036855 := by
  unfold InInt64 at hd
  unfold Milliseconds
  rcases le_or_lt 0 d with h0 | h0
  · rw [Int.tdiv_eq_ediv h0 (by decide)]
    omega
  · have hneg : Int.tdiv d 1000000 = -(Int.tdiv (-d) 1000000) := by
      rw [Int.neg_tdiv, neg_neg]
    rw [hneg, Int.tdiv_eq_ediv (by omega) (by decide)]
    omega

/-- The sum of the two latencies does not overflow. -/
theorem wrap_total (r : Fin 901) {d : Int} (hd : InInt64 d) :
    wrapInt64 (simulatedLatency r + Milliseconds d) = simulatedLatency r + Milliseconds d := by
  have hb := milliseconds_bounds hd
  have hr := r.isLt
  unfold wrapInt64 simulatedLatency
  omega

/-- Changing the status of the peer's answer changes nothing in the outcome. -/
theorem withPeerStatus_outcome (w : World) (c : Context) (s : Int) :
    ChallengeHandler (w.withPeerStatus s) c = ChallengeHandler w c := by
  have hN : ∀ u, NewRequest (w.withPeerStatus s) u = NewRequest w u := fun _ => rfl
  have hD : ∀ r, (w.withPeerStatus s).Do r =
      (w.Do r).map (fun x => { x with StatusCode := s }) := fun _ => rfl
  have hU : (w.withPeerStatus s).Unmarshal = w.Unmarshal := rfl
  have hp : (w.withPeerStatus s).playerName = w.playerName := rfl
  have hf : (w.withPeerStatus s).FORCE_LOSS = w.FORCE_LOSS := rfl
  have hi : (w.withPeerStatus s).Intn901 = w.Intn901 := rfl
  have hn : (w.withPeerStatus s).now = w.now := rfl
  have he : (w.withPeerStatus s).elapsed = w.elapsed := rfl
  cases h1 : ShouldBindJSON c with
  | error e => simp [ChallengeHandler, h1]
  | ok request =>
    cases h2 : NewRequest w request.OpponentURL with
    | error e => simp [ChallengeHandler, h1, h2, hN, hi]
    | ok req0 =>
      cases h3 : w.Do (withRequestID (c.GetHeader "X-Request-ID") req0) with
      | error e => simp [ChallengeHandler, h1, h2, h3, hN, hD, hi, Except.map]
      | ok resp =>
        cases h4 : resp.Body with
        | error e => simp [ChallengeHandler, h1, h2, h3, h4, hN, hD, hi, Except.map]
        | ok body =>
          cases h5 : w.Unmarshal body with
          | error e =>
            simp [ChallengeHandler, h1, h2, h3, h4, h5, hN, hD, hU, hi, Except.map]
          | ok opp =>
            simp [ChallengeHandler, h1, h2, h3, h4, h5, hN, hD, hU, hp, hf, hi, hn, he,
              Except.map]

/-- The count `Sscanf` returns is 1, or it is 0 together with an error. -/
theorem Sscanf_count (s : String) :
    (Sscanf s).1 = 1 ∨ ((Sscanf s).1 = 0 ∧ (Sscanf s).2 ≠ none) := by
  unfold Sscanf
  split <;> simp

/-- A match record is emitted exactly when the handler answers 200. -/
theorem status_matchRecords (w : World) (c : Context) :
    ((ChallengeHandler w c).status = 200 ∧ (ChallengeHandler w c).matchRecords.length = 1 ∧
      ∃ r, (ChallengeHandler w c).body = .challenge r) ∨
    (((ChallengeHandler w c).status = 400 ∨ (ChallengeHandler w c).status = 500) ∧
      (ChallengeHandler w c).matchRecords = [] ∧
      ∃ msg, (ChallengeHandler w c).body = .error msg) := by
  cases h1 : ShouldBindJSON c with
  | error e => simp [ChallengeHandler, h1, Outcome.matchRecords, Event.matchLog, List.findSome?]
  | ok request =>
    cases h2 : NewRequest w request.OpponentURL with
    | error e =>
      simp [ChallengeHandler, h1, h2, Outcome.matchRecords, Event.matchLog, List.findSome?]
    | ok req0 =>
      cases h3 : w.Do (withRequestID (c.GetHeader "X-Request-ID") req0) with
      | error e =>
        simp [ChallengeHandler, h1, h2, h3, Outcome.matchRecords, Event.matchLog, List.findSome?]
      | ok resp =>
        cases h4 : resp.Body with
        | error e =>
          simp [ChallengeHandler, h1, h2, h3, h4, Outcome.matchRecords, Event.matchLog,
            List.findSome?]
        | ok body =>
          cases h5 : w.Unmarshal body with
          | error e =>
            simp [ChallengeHandler, h1, h2, h3, h4, h5, Outcome.matchRecords, Event.matchLog,
              List.findSome?]
          | ok opp =>
            simp [ChallengeHandler, h1, h2, h3, h4, h5, Outcome.matchRecords, Event.matchLog,
              List.findSome?]

theorem sample_completes (w : World) (c : Context)
    (hu : w.urlParse = sampleUrlParse) (hd : w.Do = sampleWorld.Do)
    (hm : w.Unmarshal = sampleWorld.Unmarshal)
    (hb : c.jsonBody = .ok { OpponentURL := "http://player-b/ping" }) :
    Completes w c peerB := by
  refine ⟨{ OpponentURL := "http://player-b/ping" },
    { Method := "GET", URL := "http://player-b/ping", Header := [] },
    { StatusCode := 200, Body := .ok sampleBody }, sampleBody, ?_, ?_, ?_, rfl, ?_⟩
  · simp [ShouldBindJSON, hb]
  · simp only [NewRequest, hu]; decide
  · simp [hd, sampleWorld]
  · simp [hm, sampleWorld]

/-! ## Adjudication -/

/-- C1. Forced loss: when `FORCE_LOSS` is the literal `true`, the adjudication returns
the peer's player name as winner and the local name as loser for every local name,
peer response and pair of latencies, and a challenge that reaches the adjudication
answers 200 with exactly that winner and loser. -/
theorem forced_loss_remote_wins (w : World) (c : Context) (opp : PingResponse)
    (h : Completes w c opp) (hf : w.FORCE_LOSS = "true") :
    (∀ (name : String) (p : PingResponse) (localLatency remoteLatency : Int),
      determineWinner name p localLatency remoteLatency w.FORCE_LOSS = (p.Player, name)) ∧
    (ChallengeHandler w c).status = 200 ∧
    ∃ d, (ChallengeHandler w c).body =
      .challenge { Winner := opp.Player, Loser := w.playerName, DurationMs := d } := by
  refine ⟨fun name p l r => by simp [determineWinner, hf], completes_status h, ?_⟩
  refine ⟨(builtResponse w opp).DurationMs, ?_⟩
  rw [completes_body h]
  simp [builtResponse, determineWinner, hf]

theorem forced_loss_remote_wins_witness :
    Completes { sampleWorld with FORCE_LOSS := "true", Intn901 := 0, elapsed := 1000000000 }
      sampleContext peerB ∧
    determineWinner "A" peerB 1 1000 "true" = ("B", "A") ∧
    ∃ d, (ChallengeHandler
        { sampleWorld with FORCE_LOSS := "true", Intn901 := 0, elapsed := 1000000000 }
        sampleContext).body = .challenge { Winner := "B", Loser := "A", DurationMs := d } :=
  have hc : Completes
      { sampleWorld with FORCE_LOSS := "true", Intn901 := 0, elapsed := 1000000000 }
      sampleContext peerB := sample_completes _ _ rfl rfl rfl rfl
  ⟨hc, (forced_loss_remote_wins _ _ _ hc rfl).1 "A" peerB 1 1000,
    (forced_loss_remote_wins _ _ _ hc rfl).2.2⟩

/-- C2. Latency comparison and tie-break: without forced loss, a challenge that
reaches the adjudication names the local node winner (and the peer loser) when the
local latency is strictly smaller than the remote one, and names the peer winner (and
the local node loser) otherwise, equal latencies included; when the two names differ,
the winner is the local name if and only if the local latency is strictly smaller. -/
theorem latency_comparison (w : World) (c : Context) (opp : PingResponse)
    (h : Completes w c opp) (hf : w.FORCE_LOSS ≠ "true") :
    ∃ r, (ChallengeHandler w c).body = .challenge r ∧
      (simulatedLatency w.Intn901 < Milliseconds w.elapsed →
        r.Winner = w.playerName ∧ r.Loser = opp.Player) ∧
      (¬ simulatedLatency w.Intn901 < Milliseconds w.elapsed →
        r.Winner = opp.Player ∧ r.Loser = w.playerName) ∧
      (simulatedLatency w.Intn901 = Milliseconds w.elapsed →
        r.Winner = opp.Player ∧ r.Loser = w.playerName) ∧
      (w.playerName ≠ opp.Player →
        (r.Winner = w.playerName ↔ simulatedLatency w.Intn901 < Milliseconds w.elapsed)) := by
  refine ⟨builtResponse w opp, completes_body h, ?_, ?_, ?_, ?_⟩
  · intro hlt
    simp [builtResponse, determineWinner, hf, hlt]
  · intro hlt
    simp [builtResponse, determineWinner, hf, hlt]
  · intro heq
    have hlt : ¬ simulatedLatency w.Intn901 < Milliseconds w.elapsed := by omega
    simp [builtResponse, determineWinner, hf, hlt]
  · intro hne
    by_cases hlt : simulatedLatency w.Intn901 < Milliseconds w.elapsed
    · simp [builtResponse, determineWinner, hf, hlt]
    · simp [builtResponse, determineWinner, hf, hlt]
      exact fun e => hne e.symm

theorem latency_comparison_witness :
    Completes sampleWorld sampleContext peerB ∧ sampleWorld.FORCE_LOSS ≠ "true" ∧
    simulatedLatency sampleWorld.Intn901 = 250 ∧ Milliseconds sampleWorld.elapsed = 250 ∧
    ∃ r, (ChallengeHandler sampleWorld sampleContext).body = .challenge r ∧
      r.Winner = "B" ∧ r.Loser = "A" :=
  have hc : Completes sampleWorld sampleContext peerB := sample_completes _ _ rfl rfl rfl rfl
  have hf : sampleWorld.FORCE_LOSS ≠ "true" := by decide
  ⟨hc, hf, by decide, by decide,
    (latency_comparison sampleWorld sampleContext peerB hc hf).elim
      (fun r hr => ⟨r, hr.1, hr.2.2.2.1 (by decide)⟩)⟩

/-- C4. Duration sum: for a challenge that reaches the adjudication (the elapsed time
being an `int64` duration), `durationMs` of the response is the local latency plus the
remote latency, without wrap-around; these are the `localTime` and `remoteTime` of the
one match record emitted, and the two values the winner was decided on. -/
theorem duration_is_sum (w : World) (c : Context) (opp : PingResponse)
    (h : Completes w c opp) (hd : InInt64 w.elapsed) :
    ∃ r m, (ChallengeHandler w c).body = .challenge r ∧
      (ChallengeHandler w c).matchRecords = [m] ∧
      m.LocalTime = simulatedLatency w.Intn901 ∧
      m.RemoteTime = Milliseconds w.elapsed ∧
      r.DurationMs = simulatedLatency w.Intn901 + Milliseconds w.elapsed ∧
      r.DurationMs = m.LocalTime + m.RemoteTime ∧
      (r.Winner, r.Loser) =
        determineWinner w.playerName opp m.LocalTime m.RemoteTime w.FORCE_LOSS := by
  refine ⟨builtResponse w opp, builtMatchLog w c opp, completes_body h,
    completes_matchRecords h, rfl, rfl, ?_, ?_, rfl⟩
  · exact wrap_total w.Intn901 hd
  · exact wrap_total w.Intn901 hd

theorem duration_is_sum_witness :
    Completes sampleWorld sampleContext peerB ∧ InInt64 sampleWorld.elapsed ∧
    ∃ r m, (ChallengeHandler sampleWorld sampleContext).body = .challenge r ∧
      (ChallengeHandler sampleWorld sampleContext).matchRecords = [m] ∧
      r.DurationMs = 500 ∧ r.DurationMs = m.LocalTime + m.RemoteTime :=
  have hc : Completes sampleWorld sampleContext peerB := sample_completes _ _ rfl rfl rfl rfl
  have hd : InInt64 sampleWorld.elapsed := by decide
  ⟨hc, hd,
    (duration_is_sum sampleWorld sampleContext peerB hc hd).elim (fun r hr =>
      hr.elim (fun m hm =>
        ⟨r, m, hm.1, hm.2.1, hm.2.2.2.2.1.trans (by decide), hm.2.2.2.2.2.1⟩))⟩

/-- C6. Winner and loser invariant: for a challenge that reaches the adjudication,
forced loss or not, winner and loser are the local name and the peer's player name,
one each; they differ whenever the two names differ; and the winner written to the
one match record is the winner of the response. -/
theorem winner_loser_invariant (w : World) (c : Context) (opp : PingResponse)
    (h : Completes w c opp) :
    ∃ r m, (ChallengeHandler w c).body = .challenge r ∧
      (ChallengeHandler w c).matchRecords = [m] ∧
      ((r.Winner = w.playerName ∧ r.Loser = opp.Player) ∨
        (r.Winner = opp.Player ∧ r.Loser = w.playerName)) ∧
      (w.playerName ≠ opp.Player → r.Winner ≠ r.Loser) ∧
      m.Winner = r.Winner ∧ m.LocalName = w.playerName ∧ m.RemoteName = opp.Player := by
  refine ⟨builtResponse w opp, builtMatchLog w c opp, completes_body h,
    completes_matchRecords h, ?_, ?_, rfl, rfl, rfl⟩
  · simp only [builtResponse, determineWinner]
    split_ifs <;> simp
  · intro hne
    simp only [builtResponse, determineWinner]
    split_ifs <;> simp [hne, Ne.symm hne]

theorem winner_loser_invariant_witness :
    Completes { sampleWorld with elapsed := 900000000 } sampleContext peerB ∧
    ∃ r m, (ChallengeHandler { sampleWorld with elapsed := 900000000 } sampleContext).body =
        .challenge r ∧
      (ChallengeHandler { sampleWorld with elapsed := 900000000 }
        sampleContext).matchRecords = [m] ∧
      r.Winner ≠ r.Loser ∧ m.Winner = r.Winner :=
  have hc : Completes { sampleWorld with elapsed := 900000000 } sampleContext peerB :=
    sample_completes _ _ rfl rfl rfl rfl
  ⟨hc, (winner_loser_invariant _ sampleContext peerB hc).elim (fun r hr =>
      hr.elim (fun m hm => ⟨r, m, hm.1, hm.2.1, hm.2.2.2.1 (by decide), hm.2.2.2.2.1⟩))⟩

/-! ## Ping -/

/-- C3 (the code departs from the claim). `PingHandler` passes to `c.Status` the item
count returned by `Sscanf`, not the integer read: with `FAIL_MODE` set to `503` the
text scans as 503 and yet the status written is 1, with an empty body; whatever the
setting, the only statuses `PingHandler` writes are 1 and 200. -/
theorem forced_status_is_item_count :
    scanInt "503".toList = .ok 503 ∧
    (∀ (w : World) (c : Context),
      (PingHandler { w with FAIL_MODE := "503" } c).status = 1 ∧
      (PingHandler { w with FAIL_MODE := "503" } c).body = .empty) ∧
    (∀ (w : World) (c : Context),
      (PingHandler w c).status = 1 ∨ (PingHandler w c).status = 200) := by
  refine ⟨by decide, ?_, ?_⟩
  · intro w c
    have hs : Sscanf "503" = (1, none) := by decide
    simp [PingHandler, hs]
  · intro w c
    by_cases hcond : w.FAIL_MODE ≠ "" ∧ (Sscanf w.FAIL_MODE).2 = none ∧
        (Sscanf w.FAIL_MODE).1 > 0
    · left
      have hone : (Sscanf w.FAIL_MODE).1 = 1 := by
        rcases Sscanf_count w.FAIL_MODE with h | h
        · exact h
        · exact absurd hcond.2.1 h.2
      simp [PingHandler, hcond, hone]
    · right
      simp [PingHandler, hcond]

/-- C5 (the code departs from the claim). The simulated latency `r + 100`, with `r`
drawn from `rand.Intn(901)`, lies in [100, 1000], every integer of [100, 1000] is
reached, and there are exactly 901 values; with `FAIL_MODE` unset (empty) the ping
sleeps that long and answers 200 with that value as `latencyMs`. But with `FAIL_MODE`
set to `0` or to `-1`, which scan as 0 and -1 and so configure no positive status,
`PingHandler` tests the item count of `Sscanf` (1) instead of the integer read, takes
the forced branch and answers status 1 with an empty body: no `latencyMs` at all. -/
theorem latency_payload_lost_on_nonpositive_fail_mode :
    (∀ r : Fin 901, 100 ≤ simulatedLatency r ∧ simulatedLatency r ≤ 1000) ∧
    (∀ v : Int, 100 ≤ v → v ≤ 1000 → ∃ r : Fin 901, simulatedLatency r = v) ∧
    (Finset.univ.image simulatedLatency).card = 901 ∧
    (∀ (w : World) (c : Context),
      (PingHandler { w with FAIL_MODE := "" } c).status = 200 ∧
      (PingHandler { w with FAIL_MODE := "" } c).body = .ping
        { Player := w.playerName, Status := "pong",
          LatencyMs := simulatedLatency w.Intn901 } ∧
      Event.sleep (simulatedLatency w.Intn901) ∈
        (PingHandler { w with FAIL_MODE := "" } c).events) ∧
    scanInt "0".toList = .ok 0 ∧
    (∀ (w : World) (c : Context),
      (PingHandler { w with FAIL_MODE := "0" } c).status = 1 ∧
      (PingHandler { w with FAIL_MODE := "0" } c).body = .empty) ∧
    scanInt "-1".toList = .ok (-1) ∧
    (∀ (w : World) (c : Context),
      (PingHandler { w with FAIL_MODE := "-1" } c).status = 1 ∧
      (PingHandler { w with FAIL_MODE := "-1" } c).body = .empty) := by
  refine ⟨?_, ?_, ?_, ?_, by decide, ?_, by decide, ?_⟩
  · intro r
    have hr := r.isLt
    unfold simulatedLatency
    omega
  · intro v h1 h2
    refine ⟨⟨(v - 100).toNat, by omega⟩, ?_⟩
    simp only [simulatedLatency]
    omega
  · have hinj : Function.Injective simulatedLatency := by
      intro a b hab
      simp only [simulatedLatency] at hab
      exact Fin.ext (by omega)
    rw [Finset.card_image_of_injective _ hinj]
    exact Finset.card_fin 901
  · intro w c
    simp [PingHandler]
  · intro w c
    have hs : Sscanf "0" = (1, none) := by decide
    simp [PingHandler, hs]
  · intro w c
    have hs : Sscanf "-1" = (1, none) := by decide
    simp [PingHandler, hs]

/-! ## Challenge: failure paths -/

/-- C7, as stated, fails: the opponent URL `://player-b` is not empty and does not
parse, and the handler answers 500, not 400. -/
theorem unparseable_url_answers_500 :
    sampleWorld.urlParse "://player-b" = .error "missing protocol scheme" ∧
    (ChallengeHandler sampleWorld
      { sampleContext with jsonBody := .ok { OpponentURL := "://player-b" } }).status = 500 ∧
    (ChallengeHandler sampleWorld
      { sampleContext with jsonBody := .ok { OpponentURL := "://player-b" } }).status ≠ 400 := by
  decide

/-- C7, amended. A request whose body does not decode, or whose `opponentUrl` is the
empty string, is answered 400; a request whose non-empty `opponentUrl` does not parse
as a URL is answered 500; in each case nothing is sent to a peer and no match record
is emitted. -/
theorem invalid_opponent_url (w : World) (c : Context) :
    (∀ e, c.jsonBody = .error e →
      (ChallengeHandler w c).status = 400 ∧ (ChallengeHandler w c).matchRecords = [] ∧
      (ChallengeHandler w c).sent = []) ∧
    (∀ request, c.jsonBody = .ok request → request.OpponentURL = "" →
      (ChallengeHandler w c).status = 400 ∧ (ChallengeHandler w c).matchRecords = [] ∧
      (ChallengeHandler w c).sent = []) ∧
    (∀ request e, c.jsonBody = .ok request → request.OpponentURL ≠ "" →
      w.urlParse request.OpponentURL = .error e →
      (ChallengeHandler w c).status = 500 ∧ (ChallengeHandler w c).matchRecords = [] ∧
      (ChallengeHandler w c).sent = []) := by
  refine ⟨?_, ?_, ?_⟩
  · intro e he
    simp [ChallengeHandler, ShouldBindJSON, he, Outcome.matchRecords, Outcome.sent,
      Event.matchLog, List.findSome?]
  · intro request hr hempty
    simp [ChallengeHandler, ShouldBindJSON, hr, hempty, Outcome.matchRecords, Outcome.sent,
      Event.matchLog, List.findSome?]
  · intro request e hr hne hu
    simp [ChallengeHandler, ShouldBindJSON, NewRequest, hr, hne, hu, Outcome.matchRecords,
      Outcome.sent, Event.matchLog, List.findSome?]

theorem invalid_opponent_url_witness :
    ({ sampleContext with jsonBody := .ok { OpponentURL := "" } } : Context).jsonBody =
      .ok { OpponentURL := "" } ∧
    (ChallengeHandler sampleWorld
      { sampleContext with jsonBody := .ok { OpponentURL := "" } }).status = 400 ∧
    (ChallengeHandler sampleWorld
      { sampleContext with jsonBody := .ok { OpponentURL := "" } }).matchRecords = [] :=
  ⟨rfl,
    ((invalid_opponent_url sampleWorld
      { sampleContext with jsonBody := .ok { OpponentURL := "" } }).2.1 _ rfl rfl).1,
    ((invalid_opponent_url sampleWorld
      { sampleContext with jsonBody := .ok { OpponentURL := "" } }).2.1 _ rfl rfl).2.1⟩

/-- C8, as stated, fails: the peer answers 503 with a body that is a well-formed ping
result, and the handler answers 200 with a challenge result and emits a match
record. -/
theorem non_2xx_peer_completes :
    (ChallengeHandler
      { sampleWorld with Do := fun _ => .ok { StatusCode := 503, Body := .ok sampleBody } }
      sampleContext).status = 200 ∧
    (ChallengeHandler
      { sampleWorld with Do := fun _ => .ok { StatusCode := 503, Body := .ok sampleBody } }
      sampleContext).body = .challenge { Winner := "B", Loser := "A", DurationMs := 500 } ∧
    (ChallengeHandler
      { sampleWorld with Do := fun _ => .ok { StatusCode := 503, Body := .ok sampleBody } }
      sampleContext).matchRecords.length = 1 := by
  decide

/-- C8, amended. The handler does not look at the peer's status: when the peer answers
with a status outside 200 to 299, the challenge is an error (500, no match record) if
the body cannot be read or does not decode, and completes (200, challenge result, one
match record) if the body decodes; replacing the peer's status by any other leaves
the whole outcome unchanged. -/
theorem peer_status_not_inspected (w : World) (c : Context) (request : ChallengeRequest)
    (req0 : Request) (resp : Response)
    (h1 : ShouldBindJSON c = .ok request)
    (h2 : NewRequest w request.OpponentURL = .ok req0)
    (h3 : w.Do (withRequestID (c.GetHeader "X-Request-ID") req0) = .ok resp)
    (_hs : resp.StatusCode < 200 ∨ 299 < resp.StatusCode) :
    (∀ e, resp.Body = .error e →
      (ChallengeHandler w c).status = 500 ∧ (ChallengeHandler w c).matchRecords = []) ∧
    (∀ body e, resp.Body = .ok body → w.Unmarshal body = .error e →
      (ChallengeHandler w c).status = 500 ∧ (ChallengeHandler w c).matchRecords = []) ∧
    (∀ body opp, resp.Body = .ok body → w.Unmarshal body = .ok opp →
      (ChallengeHandler w c).status = 200 ∧
      (ChallengeHandler w c).body = .challenge (builtResponse w opp) ∧
      (ChallengeHandler w c).matchRecords = [builtMatchLog w c opp]) ∧
    (∀ (s : Int),
      ChallengeHandler (w.withPeerStatus s) c = ChallengeHandler w c) := by
  refine ⟨?_, ?_, ?_, ?_⟩
  · intro e h4
    simp [ChallengeHandler, h1, h2, h3, h4, Outcome.matchRecords, Event.matchLog,
      List.findSome?]
  · intro body e h4 h5
    simp [ChallengeHandler, h1, h2, h3, h4, h5, Outcome.matchRecords, Event.matchLog,
      List.findSome?]
  · intro body opp h4 h5
    have hc : Completes w c opp := ⟨request, req0, resp, body, h1, h2, h3, h4, h5⟩
    exact ⟨completes_status hc, completes_body hc, completes_matchRecords hc⟩
  · intro s
    exact withPeerStatus_outcome w c s

theorem peer_status_not_inspected_witness :
    (({ StatusCode := 503, Body := .ok sampleBody } : Response).StatusCode < 200 ∨
      299 < ({ StatusCode := 503, Body := .ok sampleBody } : Response).StatusCode) ∧
    (ChallengeHandler
      { sampleWorld with Do := fun _ => .ok { StatusCode := 503, Body := .ok sampleBody } }
      sampleContext).status = 200 :=
  ⟨Or.inr (by decide),
    ((peer_status_not_inspected
      { sampleWorld with Do := fun _ => .ok { StatusCode := 503, Body := .ok sampleBody } }
      sampleContext { OpponentURL := "http://player-b/ping" }
      { Method := "GET", URL := "http://player-b/ping", Header := [] }
      { StatusCode := 503, Body := .ok sampleBody }
      (by decide) (by decide) rfl (Or.inr (by decide))).2.2.1 sampleBody peerB rfl
        (by decide)).1⟩

/-- C9. Peer communication errors: for a request that binds and whose outbound request
is built, when the outbound call fails (connect failure, timeout), or the body cannot
be read, or the body does not decode, the handler answers 500 and emits no match
record; and on every input the handler either answers 200 with a challenge result and
exactly one match record, or answers 400 or 500 with an error body and no match
record. -/
theorem peer_communication_errors (w : World) (c : Context) (request : ChallengeRequest)
    (req0 : Request)
    (h1 : ShouldBindJSON c = .ok request)
    (h2 : NewRequest w request.OpponentURL = .ok req0) :
    (∀ e, w.Do (withRequestID (c.GetHeader "X-Request-ID") req0) = .error e →
      (ChallengeHandler w c).status = 500 ∧ (ChallengeHandler w c).matchRecords = []) ∧
    (∀ resp e, w.Do (withRequestID (c.GetHeader "X-Request-ID") req0) = .ok resp →
      resp.Body = .error e →
      (ChallengeHandler w c).status = 500 ∧ (ChallengeHandler w c).matchRecords = []) ∧
    (∀ resp body e, w.Do (withRequestID (c.GetHeader "X-Request-ID") req0) = .ok resp →
      resp.Body = .ok body → w.Unmarshal body = .error e →
      (ChallengeHandler w c).status = 500 ∧ (ChallengeHandler w c).matchRecords = []) ∧
    (∀ (w' : World) (c' : Context),
      ((ChallengeHandler w' c').status = 200 ∧
        (ChallengeHandler w' c').matchRecords.length = 1 ∧
        ∃ r, (ChallengeHandler w' c').body = .challenge r) ∨
      (((ChallengeHandler w' c').status = 400 ∨ (ChallengeHandler w' c').status = 500) ∧
        (ChallengeHandler w' c').matchRecords = [] ∧
        ∃ msg, (ChallengeHandler w' c').body = .error msg)) := by
  refine ⟨?_, ?_, ?_, status_matchRecords⟩
  · intro e h3
    simp [ChallengeHandler, h1, h2, h3, Outcome.matchRecords, Event.matchLog,
      List.findSome?]
  · intro resp e h3 h4
    simp [ChallengeHandler, h1, h2, h3, h4, Outcome.matchRecords, Event.matchLog,
      List.findSome?]
  · intro resp body e h3 h4 h5
    simp [ChallengeHandler, h1, h2, h3, h4, h5, Outcome.matchRecords, Event.matchLog,
      List.findSome?]

theorem peer_communication_errors_witness :
    ShouldBindJSON sampleContext = .ok { OpponentURL := "http://player-b/ping" } ∧
    NewRequest { sampleWorld with Do := fun _ => .error "connection refused" }
      "http://player-b/ping" =
      .ok { Method := "GET", URL := "http://player-b/ping", Header := [] } ∧
    (ChallengeHandler { sampleWorld with Do := fun _ => .error "connection refused" }
      sampleContext).status = 500 ∧
    (ChallengeHandler { sampleWorld with Do := fun _ => .error "connection refused" }
      sampleContext).matchRecords = [] :=
  ⟨by decide, by decide,
    (peer_communication_errors
      { sampleWorld with Do := fun _ => .error "connection refused" } sampleContext
      { OpponentURL := "http://player-b/ping" }
      { Method := "GET", URL := "http://player-b/ping", Header := [] }
      (by decide) (by decide)).1 "connection refused" rfl⟩

/-! ## Request identifier -/

/-- C10. Request-ID propagation: for a challenge that reaches the adjudication, when
the inbound `X-Request-ID` is a non-empty value `v`, the one outbound request carries
`X-Request-ID` equal to `v` and the one match record has `requestId` equal to `v`
(written in its JSON); when the inbound request has no `X-Request-ID` (or an empty
one), the outbound request has no header at all and the match record has an empty
`requestId`, left out of its JSON. -/
theorem request_id_propagation (w : World) (c : Context) (opp : PingResponse)
    (h : Completes w c opp) :
    (c.Header.lookup (CanonicalMIMEHeaderKey "X-Request-ID") = none →
      c.GetHeader "X-Request-ID" = "") ∧
    (∀ v, c.GetHeader "X-Request-ID" = v → v ≠ "" →
      ∃ req m, (ChallengeHandler w c).sent = [req] ∧
        req.Header.Get "X-Request-ID" = v ∧
        (ChallengeHandler w c).matchRecords = [m] ∧
        m.RequestID = v ∧ ("requestId", JSONValue.str v) ∈ m.marshal) ∧
    (c.GetHeader "X-Request-ID" = "" →
      ∃ req m, (ChallengeHandler w c).sent = [req] ∧
        req.Header = [] ∧
        (ChallengeHandler w c).matchRecords = [m] ∧
        m.RequestID = "" ∧ ∀ x, ("requestId", x) ∉ m.marshal) := by
  obtain ⟨url, -, hsent⟩ := completes_sent h
  refine ⟨?_, ?_, ?_⟩
  · intro hnone
    simp [Context.GetHeader, Header.Get, hnone]
  · intro v hv hne
    refine ⟨_, builtMatchLog w c opp, hsent, ?_, completes_matchRecords h, hv, ?_⟩
    · simp [withRequestID, hv, hne, Header.Get, Header.Set, List.lookup]
    · simp [MatchLog.marshal, builtMatchLog, hv, hne]
  · intro hv
    refine ⟨_, builtMatchLog w c opp, hsent, ?_, completes_matchRecords h, hv, ?_⟩
    · simp [withRequestID, hv]
    · intro x
      simp [MatchLog.marshal, builtMatchLog, hv]

theorem request_id_propagation_witness :
    Completes sampleWorld sampleContext peerB ∧
    sampleContext.GetHeader "X-Request-ID" = "req-1" ∧
    ∃ req m, (ChallengeHandler sampleWorld sampleContext).sent = [req] ∧
      req.Header.Get "X-Request-ID" = "req-1" ∧
      (ChallengeHandler sampleWorld sampleContext).matchRecords = [m] ∧
      m.RequestID = "req-1" ∧ ("requestId", JSONValue.str "req-1") ∈ m.marshal :=
  have hc : Completes sampleWorld sampleContext peerB := sample_completes _ _ rfl rfl rfl rfl
  ⟨hc, by decide,
    (request_id_propagation sampleWorld sampleContext peerB hc).2.1 "req-1" (by decide)
      (by decide)⟩

end PlayerService
